import Mathlib

/-!
# Leaderboard service (`main.go`)

A shallow embedding of the three HTTP handlers of `main.go` (`addScore`,
`getLeaderboard`, `getUserScore`) and of the storage they drive.

* The global handle `db` is modelled by the contents of the `leaderboard` table,
  threaded explicitly through the handlers.  A table is the list of its rows in
  storage order; a row follows the schema created by `initDB`
  (`username VARCHAR(50) PRIMARY KEY, points INT DEFAULT 0`): the key is a string
  and `points` is a nullable 32-bit integer.
* The three SQL statements are given their meaning on such a table.  The server
  is taken to be reachable, so a statement fails only when the column types of
  the schema reject a value (a key of more than 50 characters, a `points` value
  leaving the `INT` range) or when a `NULL` cannot be scanned into a Go `int`.
  Assignment to the `VARCHAR(50)` key follows the SQL standard: a value of more
  than 50 characters is cut to its first 50 when the excess is all blanks, and
  rejected otherwise.
* `c.BindJSON` is library code: a handler receives its outcome (the decoded
  `User`, or the text of the decoding error).  A body whose `points` does not fit
  a Go `int` is a decoding error, so the points of a decoded `User` satisfy
  `fitsGoInt`.
* A response is a status code and the JSON document that `c.JSON` writes;
  marshalling follows `encoding/json` (a `nil` slice is written as `null`).
-/

namespace Leaderboard

/-! ## JSON documents and responses -/

/-- JSON documents as written by `c.JSON`. -/
inductive JSON where
  | null : JSON
  | num : Int → JSON
  | str : String → JSON
  | arr : List JSON → JSON
  | obj : List (String × JSON) → JSON

/-- The value of field `k` of a JSON object (`none` when `j` is not an object or has no such field). -/
def JSON.field (j : JSON) (k : String) : Option JSON :=
  match j with
  | .obj kvs => kvs.lookup k
  | _ => none

/-- The `gin.H` literal with the single key `k` bound to the string `v`. -/
def ginH (k v : String) : JSON := .obj [(k, .str v)]

/-- An HTTP response: status code and JSON body. -/
structure Response where
  status : Nat
  body : JSON

/-- The constant `http.StatusOK`. -/
def StatusOK : Nat := 200
/-- The constant `http.StatusBadRequest`. -/
def StatusBadRequest : Nat := 400
/-- The constant `http.StatusNotFound`. -/
def StatusNotFound : Nat := 404
/-- The constant `http.StatusInternalServerError`. -/
def StatusInternalServerError : Nat := 500

/-! ## Data model -/

/-- Smallest value of a Go `int` (64 bits). -/
def minGoInt : Int := -9223372036854775808
/-- Largest value of a Go `int` (64 bits). -/
def maxGoInt : Int := 9223372036854775807

/-- The integer `n` is a value of the Go type `int`. -/
def fitsGoInt (n : Int) : Bool := decide (minGoInt ≤ n) && decide (n ≤ maxGoInt)

/-- The struct `User` (`json:"username"`, `json:"points"`).  The field `Points` is a Go
`int`: the values that decoding or scanning put there satisfy `fitsGoInt`. -/
structure User where
  username : String
  points : Int
  deriving DecidableEq

/-- A row of `leaderboard (username VARCHAR(50) PRIMARY KEY, points INT DEFAULT 0)`;
`points = none` is SQL `NULL` (the column is not declared `NOT NULL`). -/
structure Row where
  username : String
  points : Option Int
  deriving DecidableEq

/-- The table `leaderboard`: its rows in storage order. -/
abbrev Table := List Row

/-- The row stored under key `u`, if any. -/
def Table.lookup (t : Table) (u : String) : Option Row :=
  t.find? (fun r => decide (r.username = u))

/-- The primary-key constraint: no two rows share a username. -/
def Table.KeysUnique (t : Table) : Prop := (t.map Row.username).Nodup

/-- Go errors seen by the handlers: the sentinel `sql.ErrNoRows`, or any other error with its text. -/
inductive GoError where
  | errNoRows : GoError
  | other : String → GoError
  deriving DecidableEq

/-- The method `err.Error()`. -/
def GoError.text : GoError → String
  | .errNoRows => "sql: no rows in result set"
  | .other s => s

/-- A Go slice value: `none` is the `nil` slice. -/
abbrev Slice (α : Type) := Option (List α)

/-- The builtin `append(s, x)`. -/
def goAppend {α : Type} (s : Slice α) (x : α) : Slice α :=
  match s with
  | none => some [x]
  | some l => some (l ++ [x])

/-- The elements of a slice (`nil` has none). -/
def Slice.elems {α : Type} (s : Slice α) : List α :=
  match s with
  | none => []
  | some l => l

/-- Marshalling of a `User` by `encoding/json`. -/
def marshalUser (u : User) : JSON :=
  .obj [("username", .str u.username), ("points", .num u.points)]

/-- Marshalling of a `[]User` by `encoding/json`: a `nil` slice is written `null`,
any other slice as an array. -/
def marshalUsers (s : Slice User) : JSON :=
  match s with
  | none => .null
  | some l => .arr (l.map marshalUser)

/-! ## Storage: the three statements -/

/-- Largest value of an `INT` column. -/
def maxInt4 : Int := 2147483647
/-- Smallest value of an `INT` column. -/
def minInt4 : Int := -2147483648

/-- Statements sent to the database. -/
inductive Stmt where
  /-- `INSERT INTO leaderboard (username, points) VALUES ($1, $2) ON CONFLICT (username) DO UPDATE SET points = leaderboard.points + 1` -/
  | upsert : String → Int → Stmt
  /-- `SELECT username, points FROM leaderboard ORDER BY points DESC` -/
  | selectAll : Stmt
  /-- `SELECT username, points FROM leaderboard WHERE username = $1` -/
  | selectOne : String → Stmt
  deriving DecidableEq

/-- The update `points = leaderboard.points + 1` applied to the row with key `u`
(`NULL + 1` is `NULL`). -/
def bump (u : String) (r : Row) : Row :=
  if r.username = u then { r with points := r.points.map (fun p => p + 1) } else r

/-- The first 50 characters of a string. -/
def cut50 (s : String) : String := ⟨s.data.take 50⟩

/-- Assignment of the text parameter `$1` to the column `username VARCHAR(50)`: a value of at
most 50 characters is stored as it is; a longer one is cut to its first 50 characters when all
the characters after them are blanks, and is rejected otherwise. -/
def toVarchar50 (s : String) : Except GoError String :=
  if s.length ≤ 50 then .ok s
  else if (s.data.drop 50).all (fun c => decide (c = ' ')) then .ok (cut50 s)
  else .error (.other "pq: value too long for type character varying(50)")

/-- The call `db.Exec` of the upsert statement with parameters `$1 = username`, `$2 = points`.
The new row is `($1, $2)` after assignment to the column types; when a row with that key
exists its points are incremented instead.  The statement is rejected, leaving the table as it
was, when `$2` is not an `INT`, when `$1` is rejected by `VARCHAR(50)`, or when the increment
overflows `INT`. -/
def execUpsert (t : Table) (username : String) (points : Int) : Except GoError Table :=
  if points < minInt4 ∨ maxInt4 < points then
    .error (.other ("pq: value \"" ++ toString points ++ "\" is out of range for type integer"))
  else
    match toVarchar50 username with
    | .error err => .error err
    | .ok key =>
      match t.lookup key with
      | none => .ok (t ++ [⟨key, some points⟩])
      | some r =>
        match r.points with
        | none => .ok (t.map (bump key))
        | some p =>
          if maxInt4 < p + 1 then .error (.other "pq: integer out of range")
          else .ok (t.map (bump key))

/-- Row `a` may precede row `b` under `ORDER BY points DESC` (`NULL`s sort first). -/
def pointsDesc (a b : Row) : Bool :=
  match a.points, b.points with
  | none, _ => true
  | some _, none => false
  | some x, some y => decide (y ≤ x)

/-- Insertion of a row into a list ordered by `pointsDesc`. -/
def insertRow (r : Row) : List Row → List Row
  | [] => [r]
  | x :: xs => if pointsDesc r x then r :: x :: xs else x :: insertRow r xs

/-- The clause `ORDER BY points DESC`: rows with equal points keep their storage order. -/
def orderByPointsDesc : List Row → List Row
  | [] => []
  | r :: rs => insertRow r (orderByPointsDesc rs)

/-- The call `db.Query` of the listing statement: the result set, in order. -/
def queryAll (t : Table) : Except GoError (List Row) :=
  .ok (orderByPointsDesc t)

/-- The call `rows.Scan(&user.Username, &user.Points)` on one row: a `NULL` cannot be stored in an `int`. -/
def scanUser (r : Row) : Except GoError User :=
  match r.points with
  | some p => .ok ⟨r.username, p⟩
  | none =>
    .error (.other "sql: Scan error on column index 1, name \"points\": converting NULL to int is unsupported")

/-- The call `db.QueryRow(...).Scan(...)` of the lookup statement: `sql.ErrNoRows`
when no row matches, else the scan of the first row. -/
def queryRowScan (t : Table) (username : String) : Except GoError User :=
  match t.lookup username with
  | none => .error .errNoRows
  | some r => scanUser r

/-! ## Handlers -/

/-- What a handler does: the response it writes, the table it leaves, and the
statements it sent to the database. -/
structure Outcome where
  response : Response
  table : Table
  issued : List Stmt

/-- The handler `addScore`; `bind` is the outcome of `c.BindJSON(&user)`. -/
def addScore (t : Table) (bind : Except String User) : Outcome :=
  match bind with
  | .error e => ⟨⟨StatusBadRequest, ginH "error" e⟩, t, []⟩
  | .ok user =>
    match execUpsert t user.username 1 with
    | .error err =>
      ⟨⟨StatusInternalServerError, ginH "error" err.text⟩, t, [.upsert user.username 1]⟩
    | .ok t' =>
      ⟨⟨StatusOK, ginH "message" "Score updated successfully"⟩, t', [.upsert user.username 1]⟩

/-- The loop `for rows.Next() { ... }` of `getLeaderboard`: scans each row and appends it to
`leaderboard`; a scan error ends the loop. -/
def scanRows : List Row → Slice User → Except GoError (Slice User)
  | [], leaderboard => .ok leaderboard
  | r :: rs, leaderboard =>
    match scanUser r with
    | .error err => .error err
    | .ok user => scanRows rs (goAppend leaderboard user)

/-- The handler `getLeaderboard`. -/
def getLeaderboard (t : Table) : Outcome :=
  match queryAll t with
  | .error err => ⟨⟨StatusInternalServerError, ginH "error" err.text⟩, t, [.selectAll]⟩
  | .ok rows =>
    match scanRows rows none with
    | .error err => ⟨⟨StatusInternalServerError, ginH "error" err.text⟩, t, [.selectAll]⟩
    | .ok leaderboard => ⟨⟨StatusOK, marshalUsers leaderboard⟩, t, [.selectAll]⟩

/-- The handler `getUserScore`; `username` is `c.Param("username")`. -/
def getUserScore (t : Table) (username : String) : Outcome :=
  match queryRowScan t username with
  | .error err =>
    if err = .errNoRows then
      ⟨⟨StatusNotFound, ginH "message" "User not found"⟩, t, [.selectOne username]⟩
    else
      ⟨⟨StatusInternalServerError, ginH "error" err.text⟩, t, [.selectOne username]⟩
  | .ok user => ⟨⟨StatusOK, marshalUser user⟩, t, [.selectOne username]⟩

/-! ## The service -/

/-- A request, as routed by `main`. -/
inductive Request where
  /-- `POST /api/leaderboard`, with the outcome of decoding its body -/
  | addScore : Except String User → Request
  /-- `GET /api/leaderboard` -/
  | getLeaderboard : Request
  /-- `GET /api/leaderboard/:username` -/
  | getUserScore : String → Request

/-- The routes of `main`: each request is dispatched to its handler. -/
def serve (t : Table) : Request → Outcome
  | .addScore bind => addScore t bind
  | .getLeaderboard => getLeaderboard t
  | .getUserScore username => getUserScore t username

/-- The table left by a sequence of requests served one after the other. -/
def serveAll (t : Table) : List Request → Table
  | [] => t
  | q :: qs => serveAll (serve t q).table qs

/-- Whether request `q`, served on table `t`, is a successful `addScore` for username `u`. -/
def scoredFor (u : String) (t : Table) (q : Request) : Bool :=
  match q with
  | .addScore (.ok user) => decide (user.username = u) && decide ((serve t q).response.status = StatusOK)
  | _ => false

/-- Number of successful `addScore` calls for `u` in a sequence of requests served from `t`. -/
def successes (u : String) (t : Table) : List Request → Nat
  | [] => 0
  | q :: qs => (if scoredFor u t q then 1 else 0) + successes u (serve t q).table qs

/-- Request `q` is not a submission for a username of more than 50 characters. -/
def validSubmission (q : Request) : Bool :=
  match q with
  | .addScore (.ok user) => decide (user.username.length ≤ 50)
  | _ => true

/-- The row a scanned `User` was read from. -/
def rowOfUser (u : User) : Row := ⟨u.username, some u.points⟩

/-- The listing succeeds on `t`: the query is answered and every row of its result is scanned. -/
def listingSucceeds (t : Table) : Prop :=
  ∃ rows leaderboard, queryAll t = .ok rows ∧ scanRows rows none = .ok leaderboard

/-! ## Lemmas on the table -/

theorem lookup_nil (u : String) : Table.lookup [] u = none := rfl

theorem lookup_cons (r : Row) (t : Table) (u : String) :
    Table.lookup (r :: t) u = if r.username = u then some r else Table.lookup t u := by
  unfold Table.lookup
  by_cases h : r.username = u <;> simp [List.find?_cons, h]

theorem lookup_username {t : Table} {u : String} {r : Row} (h : t.lookup u = some r) :
    r.username = u := by
  have := List.find?_some h
  simpa using this

theorem lookup_mem {t : Table} {u : String} {r : Row} (h : t.lookup u = some r) : r ∈ t :=
  List.mem_of_find?_eq_some h

theorem lookup_eq_none_iff (t : Table) (u : String) :
    t.lookup u = none ↔ ∀ r ∈ t, r.username ≠ u := by
  unfold Table.lookup
  simp [List.find?_eq_none]

theorem lookup_append_single (t : Table) (r : Row) (v : String) :
    Table.lookup (t ++ [r]) v =
      match t.lookup v with
      | some x => some x
      | none => if r.username = v then some r else none := by
  induction t with
  | nil => simp [lookup_cons, lookup_nil]
  | cons x t ih =>
    rw [List.cons_append, lookup_cons, lookup_cons]
    by_cases h : x.username = v
    · simp [h]
    · simp [h, ih]

theorem bump_username (u : String) (r : Row) : (bump u r).username = r.username := by
  unfold bump
  split <;> rfl

theorem bump_other {u : String} {r : Row} (h : r.username ≠ u) : bump u r = r := by
  unfold bump
  simp [h]

theorem lookup_map_bump (t : Table) (u v : String) :
    Table.lookup (t.map (bump u)) v = (t.lookup v).map (bump u) := by
  induction t with
  | nil => rfl
  | cons x t ih =>
    rw [List.map_cons, lookup_cons, lookup_cons, bump_username]
    by_cases h : x.username = v
    · simp [h]
    · simp [h, ih]

theorem lookup_map_bump_other (t : Table) {u v : String} (h : v ≠ u) :
    Table.lookup (t.map (bump u)) v = t.lookup v := by
  rw [lookup_map_bump]
  cases hl : t.lookup v with
  | none => rfl
  | some r =>
    have hr : r.username ≠ u := by
      rw [lookup_username hl]
      exact h
    simp [bump_other hr]

theorem filter_map_bump (t : Table) (u : String) :
    (t.map (bump u)).filter (fun r => decide (r.username ≠ u)) =
      t.filter (fun r => decide (r.username ≠ u)) := by
  induction t with
  | nil => rfl
  | cons x t ih =>
    by_cases h : x.username = u
    · simpa [List.filter_cons, bump_username, h] using ih
    · simp only [List.map_cons, List.filter_cons, bump_username, ih, bump_other h]

/-! ## The upsert statement -/

theorem toVarchar50_of_le {s : String} (h : s.length ≤ 50) : toVarchar50 s = .ok s := by
  simp [toVarchar50, h]

/-- What an accepted upsert leaves in the table: under the key `k` the column stores `$1` as,
a new last row, or the same rows with the points of the conflicting one incremented. -/
theorem execUpsert_ok {t t' : Table} {u : String} {n : Int} (h : execUpsert t u n = .ok t') :
    ∃ k, toVarchar50 u = .ok k ∧
      ((t.lookup k = none ∧ t' = t ++ [⟨k, some n⟩]) ∨
        (∃ r, t.lookup k = some r ∧ t' = t.map (bump k) ∧
          ∀ p, r.points = some p → p + 1 ≤ maxInt4)) := by
  unfold execUpsert at h
  split at h
  · cases h
  · split at h
    · cases h
    · next key hk =>
      refine ⟨key, hk, ?_⟩
      split at h
      · next hl =>
        left
        injection h with h
        exact ⟨hl, h.symm⟩
      · next r hl =>
        right
        refine ⟨r, hl, ?_⟩
        split at h
        · next hp =>
          injection h with h
          refine ⟨h.symm, ?_⟩
          intro p hp'
          rw [hp] at hp'
          cases hp'
        · next p hp =>
          split at h
          · cases h
          · next hle =>
            injection h with h
            refine ⟨h.symm, ?_⟩
            intro q hq
            rw [hp] at hq
            injection hq with hq
            subst hq
            exact not_lt.mp hle

/-- An accepted upsert of a key of at most 50 characters is stored under that key. -/
theorem execUpsert_ok_of_le {t t' : Table} {u : String} {n : Int} (hu : u.length ≤ 50)
    (h : execUpsert t u n = .ok t') :
    (t.lookup u = none ∧ t' = t ++ [⟨u, some n⟩]) ∨
      (∃ r, t.lookup u = some r ∧ t' = t.map (bump u) ∧
        ∀ p, r.points = some p → p + 1 ≤ maxInt4) := by
  obtain ⟨k, hk, hcases⟩ := execUpsert_ok h
  rw [toVarchar50_of_le hu] at hk
  injection hk with hk
  subst hk
  exact hcases

/-- A rejected upsert: the handler keeps the table it had. -/
theorem addScore_table_of_error {t : Table} {user : User} {err : GoError}
    (h : execUpsert t user.username 1 = .error err) :
    addScore t (.ok user) =
      ⟨⟨StatusInternalServerError, ginH "error" err.text⟩, t, [.upsert user.username 1]⟩ := by
  simp [addScore, h]

theorem addScore_table_of_ok {t t' : Table} {user : User}
    (h : execUpsert t user.username 1 = .ok t') :
    addScore t (.ok user) =
      ⟨⟨StatusOK, ginH "message" "Score updated successfully"⟩, t', [.upsert user.username 1]⟩ := by
  simp [addScore, h]

/-- The response of `addScore` on a decoded body is 200 exactly when the upsert was accepted. -/
theorem addScore_status_ok_iff (t : Table) (user : User) :
    (addScore t (.ok user)).response.status = StatusOK ↔
      ∃ t', execUpsert t user.username 1 = .ok t' := by
  cases h : execUpsert t user.username 1 with
  | error err => simp [addScore_table_of_error h, StatusOK, StatusInternalServerError]
  | ok t' => simp [addScore_table_of_ok h]

/-! ## The listing statement and the scan loop -/

theorem pointsDesc_total {a b : Row} (h : pointsDesc a b = false) : pointsDesc b a = true := by
  unfold pointsDesc at h ⊢
  cases ha : a.points <;> cases hb : b.points <;> simp_all
  omega

theorem pointsDesc_trans {a b c : Row} (hab : pointsDesc a b = true) (hbc : pointsDesc b c = true) :
    pointsDesc a c = true := by
  unfold pointsDesc at hab hbc ⊢
  cases ha : a.points <;> cases hb : b.points <;> cases hc : c.points <;> simp_all
  omega

theorem insertRow_perm (r : Row) (l : List Row) : (insertRow r l).Perm (r :: l) := by
  induction l with
  | nil => exact List.Perm.refl _
  | cons x xs ih =>
    unfold insertRow
    split
    · exact List.Perm.refl _
    · exact (List.Perm.cons x ih).trans (List.Perm.swap r x xs)

theorem orderByPointsDesc_perm (t : List Row) : (orderByPointsDesc t).Perm t := by
  induction t with
  | nil => exact List.Perm.refl _
  | cons r rs ih => exact (insertRow_perm r _).trans (List.Perm.cons r ih)

theorem insertRow_sorted (r : Row) (l : List Row)
    (h : l.Pairwise (fun a b => pointsDesc a b = true)) :
    (insertRow r l).Pairwise (fun a b => pointsDesc a b = true) := by
  induction l with
  | nil => simp [insertRow]
  | cons x xs ih =>
    have hx := List.pairwise_cons.mp h
    unfold insertRow
    split
    · next hrx =>
      refine List.pairwise_cons.mpr ⟨?_, h⟩
      intro y hy
      rcases List.mem_cons.mp hy with rfl | hy
      · exact hrx
      · exact pointsDesc_trans hrx (hx.1 y hy)
    · next hrx =>
      refine List.pairwise_cons.mpr ⟨?_, ih hx.2⟩
      intro y hy
      rcases List.mem_cons.mp ((insertRow_perm r xs).mem_iff.mp hy) with rfl | hy
      · exact pointsDesc_total (by simpa using hrx)
      · exact hx.1 y hy

theorem orderByPointsDesc_sorted (t : List Row) :
    (orderByPointsDesc t).Pairwise (fun a b => pointsDesc a b = true) := by
  induction t with
  | nil => exact List.Pairwise.nil
  | cons r rs ih => exact insertRow_sorted r _ ih

theorem scanUser_ok {r : Row} {user : User} (h : scanUser r = .ok user) : rowOfUser user = r := by
  unfold scanUser at h
  split at h
  · next p hp =>
    injection h with h
    subst h
    cases r
    simp_all [rowOfUser]
  · cases h

theorem scanUser_of_points {r : Row} (h : r.points ≠ none) : ∃ user, scanUser r = .ok user := by
  unfold scanUser
  cases hp : r.points with
  | none => exact absurd hp h
  | some p => exact ⟨_, rfl⟩

theorem elems_goAppend {α : Type} (s : Slice α) (x : α) : (goAppend s x).elems = s.elems ++ [x] := by
  cases s <;> rfl

theorem goAppend_ne_nil {α : Type} (s : Slice α) (x : α) : goAppend s x ≠ none := by
  cases s <;> simp [goAppend]

/-- The loop appends the scanned rows, in order, to what `leaderboard` already held. -/
theorem scanRows_ok : ∀ (rows : List Row) (acc s : Slice User), scanRows rows acc = .ok s →
    s.elems.map rowOfUser = acc.elems.map rowOfUser ++ rows ∧ (acc ≠ none ∨ rows ≠ [] → s ≠ none)
  | [], acc, s, h => by
    injection h with h
    subst h
    simp
  | r :: rs, acc, s, h => by
    unfold scanRows at h
    split at h
    · cases h
    · next user hu =>
      have ih := scanRows_ok rs (goAppend acc user) s h
      refine ⟨?_, fun _ => ih.2 (Or.inl (goAppend_ne_nil acc user))⟩
      rw [ih.1, elems_goAppend, List.map_append, List.append_assoc]
      simp [scanUser_ok hu]

theorem scanRows_of_points : ∀ (rows : List Row) (acc : Slice User),
    (∀ r ∈ rows, r.points ≠ none) → ∃ s, scanRows rows acc = .ok s
  | [], acc, _ => ⟨acc, rfl⟩
  | r :: rs, acc, h => by
    obtain ⟨user, hu⟩ := scanUser_of_points (h r (List.mem_cons_self r rs))
    obtain ⟨s, hs⟩ := scanRows_of_points rs (goAppend acc user)
      (fun x hx => h x (List.mem_cons_of_mem r hx))
    exact ⟨s, by simp [scanRows, hu, hs]⟩

theorem scanRows_points : ∀ (rows : List Row) (acc s : Slice User), scanRows rows acc = .ok s →
    ∀ r ∈ rows, r.points ≠ none := by
  intro rows acc s h r hr
  have := (scanRows_ok rows acc s h).1
  have hmem : r ∈ s.elems.map rowOfUser := by
    rw [this]
    exact List.mem_append_right _ hr
  obtain ⟨user, _, rfl⟩ := List.mem_map.mp hmem
  simp [rowOfUser]

/-- The listing succeeds exactly on the tables without `NULL` points. -/
theorem listingSucceeds_iff (t : Table) : listingSucceeds t ↔ ∀ r ∈ t, r.points ≠ none := by
  constructor
  · rintro ⟨rows, s, hq, hs⟩ r hr
    injection hq with hq
    subst hq
    exact scanRows_points _ _ _ hs r ((orderByPointsDesc_perm t).mem_iff.mpr hr)
  · intro h
    obtain ⟨s, hs⟩ := scanRows_of_points (orderByPointsDesc t) none
      (fun r hr => h r ((orderByPointsDesc_perm t).mem_iff.mp hr))
    exact ⟨_, s, rfl, hs⟩

/-! ## The handlers on the table -/

/-- An accepted `addScore` for a username of at most 50 characters creates its row with
points 1, or adds 1 to its points. -/
theorem addScore_ok_lookup {t : Table} {user : User} (hu : user.username.length ≤ 50)
    (hok : (addScore t (.ok user)).response.status = StatusOK) :
    (t.lookup user.username = none →
      (addScore t (.ok user)).table.lookup user.username = some ⟨user.username, some 1⟩) ∧
    (∀ p : Int, t.lookup user.username = some ⟨user.username, some p⟩ →
      (addScore t (.ok user)).table.lookup user.username = some ⟨user.username, some (p + 1)⟩) := by
  obtain ⟨t', ht'⟩ := (addScore_status_ok_iff t user).mp hok
  rw [addScore_table_of_ok ht']
  rcases execUpsert_ok_of_le hu ht' with ⟨hnone, rfl⟩ | ⟨r, hsome, rfl, -⟩
  · refine ⟨fun _ => ?_, fun p hp => ?_⟩
    · simp [lookup_append_single, hnone]
    · rw [hnone] at hp
      cases hp
  · refine ⟨fun hn => ?_, fun p hp => ?_⟩
    · rw [hsome] at hn
      cases hn
    · simp [lookup_map_bump, hp, bump]

/-- An `addScore` that does not answer 200 leaves the table as it was. -/
theorem addScore_table_of_not_ok {t : Table} {bind : Except String User}
    (h : (addScore t bind).response.status ≠ StatusOK) : (addScore t bind).table = t := by
  cases bind with
  | error e => rfl
  | ok user =>
    cases hx : execUpsert t user.username 1 with
    | error err => rw [addScore_table_of_error hx]
    | ok t' =>
      rw [addScore_table_of_ok hx] at h
      exact absurd rfl h

/-- The rows stored under a key other than the one the statement is accepted under are not
touched by the upsert. -/
theorem execUpsert_lookup_other {t t' : Table} {u v : String} {n : Int}
    (h : execUpsert t u n = .ok t') (hv : toVarchar50 u ≠ .ok v) : t'.lookup v = t.lookup v := by
  obtain ⟨k, hk, hcases⟩ := execUpsert_ok h
  have hkv : v ≠ k := by
    intro hvk
    rw [hvk] at hv
    exact hv hk
  rcases hcases with ⟨-, rfl⟩ | ⟨r, -, rfl, -⟩
  · rw [lookup_append_single]
    cases t.lookup v with
    | none => simp [Ne.symm hkv]
    | some x => rfl
  · exact lookup_map_bump_other t hkv

/-- The rows of the other usernames are not touched by `addScore` for a username of at most
50 characters. -/
theorem addScore_lookup_other (t : Table) (user : User) {v : String}
    (hu : user.username.length ≤ 50) (h : v ≠ user.username) :
    (addScore t (.ok user)).table.lookup v = t.lookup v := by
  cases hx : execUpsert t user.username 1 with
  | error err => rw [addScore_table_of_error hx]
  | ok t' =>
    rw [addScore_table_of_ok hx]
    refine execUpsert_lookup_other hx ?_
    rw [toVarchar50_of_le hu]
    intro hv
    injection hv with hv
    exact h hv.symm

theorem addScore_filter_other (t : Table) (user : User) (hu : user.username.length ≤ 50) :
    (addScore t (.ok user)).table.filter (fun r => decide (r.username ≠ user.username)) =
      t.filter (fun r => decide (r.username ≠ user.username)) := by
  cases hx : execUpsert t user.username 1 with
  | error err => rw [addScore_table_of_error hx]
  | ok t' =>
    rw [addScore_table_of_ok hx]
    rcases execUpsert_ok_of_le hu hx with ⟨-, rfl⟩ | ⟨r, -, rfl, -⟩
    · simp [List.filter_append]
    · exact filter_map_bump t user.username

/-- Whatever the username, `addScore` keeps a row that holds a number and never lowers it. -/
theorem addScore_lookup_mono (t : Table) (bind : Except String User) {u : String} {p : Int}
    (h : t.lookup u = some ⟨u, some p⟩) :
    ∃ p' : Int, (addScore t bind).table.lookup u = some ⟨u, some p'⟩ ∧ p ≤ p' := by
  cases bind with
  | error e => exact ⟨p, h, le_refl p⟩
  | ok user =>
    cases hx : execUpsert t user.username 1 with
    | error err =>
      rw [addScore_table_of_error hx]
      exact ⟨p, h, le_refl p⟩
    | ok t' =>
      rw [addScore_table_of_ok hx]
      obtain ⟨k, hk, hcases⟩ := execUpsert_ok hx
      by_cases hku : k = u
      · subst hku
        rcases hcases with ⟨hnone, -⟩ | ⟨r, -, rfl, -⟩
        · rw [hnone] at h
          cases h
        · exact ⟨p + 1, by simp [lookup_map_bump, h, bump], by omega⟩
      · refine ⟨p, ?_, le_refl p⟩
        have hv : toVarchar50 user.username ≠ .ok u := by
          rw [hk]
          intro hv
          injection hv with hv
          exact hku hv
        show Table.lookup t' u = some ⟨u, some p⟩
        rw [execUpsert_lookup_other hx hv]
        exact h

theorem getLeaderboard_table (t : Table) : (getLeaderboard t).table = t := by
  unfold getLeaderboard
  split
  · rfl
  · split <;> rfl

theorem getUserScore_table (t : Table) (u : String) : (getUserScore t u).table = t := by
  unfold getUserScore
  split
  · split <;> rfl
  · rfl

/-- The lookup of a row that holds a number answers 200 with that row. -/
theorem getUserScore_of_lookup {t : Table} {u : String} {p : Int}
    (h : t.lookup u = some ⟨u, some p⟩) :
    (getUserScore t u).response = ⟨StatusOK, marshalUser ⟨u, p⟩⟩ := by
  simp [getUserScore, queryRowScan, h, scanUser]

/-- An accepted upsert keeps the primary key unique. -/
theorem execUpsert_keysUnique {t t' : Table} {u : String} {n : Int}
    (hk : t.KeysUnique) (h : execUpsert t u n = .ok t') : t'.KeysUnique := by
  unfold Table.KeysUnique at hk ⊢
  obtain ⟨k, -, hcases⟩ := execUpsert_ok h
  rcases hcases with ⟨hnone, rfl⟩ | ⟨r, -, rfl, -⟩
  · rw [List.map_append, List.nodup_append]
    refine ⟨hk, by simp, ?_⟩
    intro a ha hb
    simp only [List.map_cons, List.map_nil, List.mem_singleton] at hb
    rw [hb] at ha
    obtain ⟨r, hr, hru⟩ := List.mem_map.mp ha
    exact (lookup_eq_none_iff t k).mp hnone r hr hru
  · have : (t.map (bump k)).map Row.username = t.map Row.username := by
      rw [List.map_map]
      exact List.map_congr_left (fun r _ => bump_username k r)
    rw [this]
    exact hk

/-- A decoded `addScore` sends exactly one statement, the upsert with `$2 = 1`: there is no
read of the row before the write. -/
theorem addScore_issues_one_statement (t : Table) (user : User) :
    (addScore t (.ok user)).issued = [.upsert user.username 1] := by
  unfold addScore
  dsimp only
  split <;> rfl

/-! ## Sequences of requests -/

theorem serve_lookup_of_scored {u : String} {t : Table} {q : Request}
    (hq : validSubmission q = true) (h : scoredFor u t q = true) :
    (t.lookup u = none → (serve t q).table.lookup u = some ⟨u, some 1⟩) ∧
    (∀ p : Int, t.lookup u = some ⟨u, some p⟩ →
      (serve t q).table.lookup u = some ⟨u, some (p + 1)⟩) := by
  cases q with
  | getLeaderboard => simp [scoredFor] at h
  | getUserScore w => simp [scoredFor] at h
  | addScore bind =>
    cases bind with
    | error e => simp [scoredFor] at h
    | ok user =>
      simp only [scoredFor, Bool.and_eq_true, decide_eq_true_eq] at h
      simp only [validSubmission, decide_eq_true_eq] at hq
      obtain ⟨hu, hok⟩ := h
      subst hu
      exact addScore_ok_lookup hq hok

theorem serve_lookup_of_not_scored {u : String} {t : Table} {q : Request}
    (hq : validSubmission q = true) (h : scoredFor u t q = false) :
    (serve t q).table.lookup u = t.lookup u := by
  cases q with
  | getLeaderboard => exact congrArg (fun x => Table.lookup x u) (getLeaderboard_table t)
  | getUserScore w => exact congrArg (fun x => Table.lookup x u) (getUserScore_table t w)
  | addScore bind =>
    cases bind with
    | error e => rfl
    | ok user =>
      simp only [validSubmission, decide_eq_true_eq] at hq
      by_cases hu : user.username = u
      · have hst : (addScore t (.ok user)).response.status ≠ StatusOK := by
          intro hok
          simp [scoredFor, hu, serve, hok] at h
        exact congrArg (fun x => Table.lookup x u) (addScore_table_of_not_ok hst)
      · exact addScore_lookup_other t user hq (Ne.symm hu)

theorem successes_cons (u : String) (t : Table) (q : Request) (qs : List Request) :
    successes u t (q :: qs) =
      (if scoredFor u t q then 1 else 0) + successes u (serve t q).table qs := rfl

/-- From a row holding `p`, the row ends holding `p` plus the number of successful calls. -/
theorem serveAll_lookup_some (u : String) : ∀ (qs : List Request) (t : Table) (p : Int),
    (∀ q ∈ qs, validSubmission q = true) → t.lookup u = some ⟨u, some p⟩ →
    (serveAll t qs).lookup u = some ⟨u, some (p + (successes u t qs : Nat))⟩
  | [], t, p, _, h => by simpa [serveAll, successes] using h
  | q :: qs, t, p, hv, h => by
    have hq := hv q (List.mem_cons_self q qs)
    have hqs : ∀ x ∈ qs, validSubmission x = true := fun x hx => hv x (List.mem_cons_of_mem q hx)
    rw [serveAll, successes_cons]
    cases hs : scoredFor u t q with
    | true =>
      have h1 := (serve_lookup_of_scored hq hs).2 p h
      rw [serveAll_lookup_some u qs _ _ hqs h1]
      simp only [if_true, Nat.cast_add, Nat.cast_one]
      rw [add_assoc]
    | false =>
      have h1 : (serve t q).table.lookup u = some ⟨u, some p⟩ := by
        rw [serve_lookup_of_not_scored hq hs]
        exact h
      rw [serveAll_lookup_some u qs _ _ hqs h1]
      simp

/-- From no row, the row exists once a call succeeded and holds the number of successful calls. -/
theorem serveAll_lookup_none (u : String) : ∀ (qs : List Request) (t : Table),
    (∀ q ∈ qs, validSubmission q = true) → t.lookup u = none → 1 ≤ successes u t qs →
    (serveAll t qs).lookup u = some ⟨u, some ((successes u t qs : Nat) : Int)⟩
  | [], t, _, _, hN => by simp [successes] at hN
  | q :: qs, t, hv, h, hN => by
    have hq := hv q (List.mem_cons_self q qs)
    have hqs : ∀ x ∈ qs, validSubmission x = true := fun x hx => hv x (List.mem_cons_of_mem q hx)
    rw [successes_cons] at hN ⊢
    rw [serveAll]
    cases hs : scoredFor u t q with
    | true =>
      have h1 := (serve_lookup_of_scored hq hs).1 h
      rw [serveAll_lookup_some u qs _ _ hqs h1]
      simp
    | false =>
      have h1 : (serve t q).table.lookup u = none := by
        rw [serve_lookup_of_not_scored hq hs]
        exact h
      rw [hs] at hN
      simp only [Bool.false_eq_true, if_false, Nat.zero_add] at hN ⊢
      exact serveAll_lookup_none u qs _ hqs h1 hN

/-! ## The claims -/

/-- C1 (as stated, fails): on the empty table, one successful call for the username of 50
letters `a` followed by one submission for another username, the same 50 letters and a blank,
leaves the row of the first username with 2 points, not 1: the key column cuts the second
username to the first. -/
theorem addScore_n_times_padded_other :
    successes "aaaaaaaaaaaaaaaaaaaaaaaaaaaaaaaaaaaaaaaaaaaaaaaaaa" [] [.addScore (.ok ⟨"aaaaaaaaaaaaaaaaaaaaaaaaaaaaaaaaaaaaaaaaaaaaaaaaaa", 0⟩), .addScore (.ok ⟨"aaaaaaaaaaaaaaaaaaaaaaaaaaaaaaaaaaaaaaaaaaaaaaaaaa ", 0⟩)] = 1 ∧
    (serveAll [] [.addScore (.ok ⟨"aaaaaaaaaaaaaaaaaaaaaaaaaaaaaaaaaaaaaaaaaaaaaaaaaa", 0⟩), .addScore (.ok ⟨"aaaaaaaaaaaaaaaaaaaaaaaaaaaaaaaaaaaaaaaaaaaaaaaaaa ", 0⟩)]).lookup "aaaaaaaaaaaaaaaaaaaaaaaaaaaaaaaaaaaaaaaaaaaaaaaaaa" =
      some ⟨"aaaaaaaaaaaaaaaaaaaaaaaaaaaaaaaaaaaaaaaaaaaaaaaaaa", some 2⟩ ∧
    (getUserScore (serveAll [] [.addScore (.ok ⟨"aaaaaaaaaaaaaaaaaaaaaaaaaaaaaaaaaaaaaaaaaaaaaaaaaa", 0⟩), .addScore (.ok ⟨"aaaaaaaaaaaaaaaaaaaaaaaaaaaaaaaaaaaaaaaaaaaaaaaaaa ", 0⟩)])
        "aaaaaaaaaaaaaaaaaaaaaaaaaaaaaaaaaaaaaaaaaaaaaaaaaa").response =
      ⟨200, .obj [("username", .str "aaaaaaaaaaaaaaaaaaaaaaaaaaaaaaaaaaaaaaaaaaaaaaaaaa"), ("points", .num 2)]⟩ :=
  ⟨by decide, by decide, rfl⟩

/-- C1 (amended): starting from a table with no row for `u`, after any sequence of requests
whose submitted usernames all have at most 50 characters and in which `N ≥ 1` calls of
`addScore` for `u` succeed, the table has a row for `u` with `N` points and `getUserScore` for
`u` answers 200 with username `u` and points `N`. -/
theorem addScore_n_times (u : String) (t : Table) (qs : List Request)
    (hvalid : ∀ q ∈ qs, validSubmission q = true)
    (hnew : ∀ r ∈ t, r.username ≠ u) (hN : 1 ≤ successes u t qs) :
    (serveAll t qs).lookup u = some ⟨u, some ((successes u t qs : Nat) : Int)⟩ ∧
    (getUserScore (serveAll t qs) u).response =
      ⟨200, .obj [("username", .str u), ("points", .num ((successes u t qs : Nat) : Int))]⟩ := by
  have h := serveAll_lookup_none u qs t hvalid ((lookup_eq_none_iff t u).mpr hnew) hN
  exact ⟨h, getUserScore_of_lookup h⟩

/-- C1 (amended) at a concrete sequence: two successful calls for `alice` among other
requests. -/
theorem addScore_n_times_witness :
    successes "alice" [⟨"bob", some 3⟩]
        [.addScore (.ok ⟨"alice", 0⟩), .addScore (.ok ⟨"bob", 0⟩), .getLeaderboard,
          .addScore (.error "EOF"), .addScore (.ok ⟨"alice", 7⟩)] = 2 ∧
    (getUserScore (serveAll [⟨"bob", some 3⟩]
        [.addScore (.ok ⟨"alice", 0⟩), .addScore (.ok ⟨"bob", 0⟩), .getLeaderboard,
          .addScore (.error "EOF"), .addScore (.ok ⟨"alice", 7⟩)]) "alice").response =
      ⟨200, .obj [("username", .str "alice"), ("points", .num 2)]⟩ :=
  ⟨by decide,
    (addScore_n_times "alice" [⟨"bob", some 3⟩]
      [.addScore (.ok ⟨"alice", 0⟩), .addScore (.ok ⟨"bob", 0⟩), .getLeaderboard,
        .addScore (.error "EOF"), .addScore (.ok ⟨"alice", 7⟩)]
      (by decide) (by decide) (by decide)).2⟩

/-- C2 (as stated, fails): on the empty table, `addScore` for the username of 50 letters `a`
and a blank answers 200, yet afterwards the table has no row for that username: the row
created is the one of its first 50 characters. -/
theorem addScore_upsert_padded :
    (addScore [] (.ok ⟨"aaaaaaaaaaaaaaaaaaaaaaaaaaaaaaaaaaaaaaaaaaaaaaaaaa ", 9⟩)).response.status = 200 ∧
    Table.lookup [] "aaaaaaaaaaaaaaaaaaaaaaaaaaaaaaaaaaaaaaaaaaaaaaaaaa " = none ∧
    (addScore [] (.ok ⟨"aaaaaaaaaaaaaaaaaaaaaaaaaaaaaaaaaaaaaaaaaaaaaaaaaa ", 9⟩)).table.lookup "aaaaaaaaaaaaaaaaaaaaaaaaaaaaaaaaaaaaaaaaaaaaaaaaaa " = none ∧
    (addScore [] (.ok ⟨"aaaaaaaaaaaaaaaaaaaaaaaaaaaaaaaaaaaaaaaaaaaaaaaaaa ", 9⟩)).table = [⟨"aaaaaaaaaaaaaaaaaaaaaaaaaaaaaaaaaaaaaaaaaaaaaaaaaa", some 1⟩] := by
  decide

/-- C2 (amended): a successful `addScore` (one answering 200) for a username `u` of at most 50
characters is an upsert: with no row for `u` the table afterwards has a row for `u` with
points 1; with a row for `u` holding `p` that row afterwards holds `p + 1`; the answer is 200
with the message `Score updated successfully`. -/
theorem addScore_upsert (t : Table) (user : User) (hu : user.username.length ≤ 50)
    (hok : (addScore t (.ok user)).response.status = 200) :
    (t.lookup user.username = none →
      (addScore t (.ok user)).table.lookup user.username = some ⟨user.username, some 1⟩) ∧
    (∀ p : Int, t.lookup user.username = some ⟨user.username, some p⟩ →
      (addScore t (.ok user)).table.lookup user.username = some ⟨user.username, some (p + 1)⟩) ∧
    (addScore t (.ok user)).response =
      ⟨200, .obj [("message", .str "Score updated successfully")]⟩ := by
  refine ⟨(addScore_ok_lookup hu hok).1, (addScore_ok_lookup hu hok).2, ?_⟩
  obtain ⟨t', ht'⟩ := (addScore_status_ok_iff t user).mp hok
  rw [addScore_table_of_ok ht']
  rfl

/-- C2 (amended) at a concrete table: a first submission for `alice`, a further one for
`bob`. -/
theorem addScore_upsert_witness :
    (addScore [⟨"bob", some 3⟩] (.ok ⟨"alice", 9⟩)).table.lookup "alice" =
      some ⟨"alice", some 1⟩ ∧
    (addScore [⟨"bob", some 3⟩] (.ok ⟨"bob", 9⟩)).table.lookup "bob" = some ⟨"bob", some (3 + 1)⟩ :=
  ⟨(addScore_upsert [⟨"bob", some 3⟩] ⟨"alice", 9⟩ (by decide) (by decide)).1 (by decide),
    (addScore_upsert [⟨"bob", some 3⟩] ⟨"bob", 9⟩ (by decide) (by decide)).2.1 3 (by decide)⟩

/-- C3: on every table on which the listing succeeds (the query is answered and every row is
scanned), `getLeaderboard` answers 200 with the marshalled slice `leaderboard`, whose elements
are the rows of the table, each exactly once (a permutation), sorted by points in
non-increasing order: for positions `i < j` the points at `i` are at least the points at `j`.
For a table with at least one row the body is the JSON array of these elements. -/
theorem getLeaderboard_sorted_perm (t : Table) (h : listingSucceeds t) :
    ∃ leaderboard : Slice User,
      (getLeaderboard t).response = ⟨200, marshalUsers leaderboard⟩ ∧
      (leaderboard.elems.map rowOfUser).Perm t ∧
      (∀ (i j : Nat) (a b : User), i < j → leaderboard.elems[i]? = some a →
        leaderboard.elems[j]? = some b → b.points ≤ a.points) ∧
      (t ≠ [] → (getLeaderboard t).response.body = .arr (leaderboard.elems.map marshalUser)) := by
  obtain ⟨rows, s, hq, hs⟩ := h
  have hrows : rows = orderByPointsDesc t := by
    injection hq with hq
    exact hq.symm
  have hscan := scanRows_ok rows none s hs
  have helems : s.elems.map rowOfUser = orderByPointsDesc t := by
    rw [hscan.1, hrows]
    rfl
  have hresp : (getLeaderboard t).response = ⟨200, marshalUsers s⟩ := by
    simp only [getLeaderboard, hq, hs]
    rfl
  refine ⟨s, hresp, ?_, ?_, ?_⟩
  · rw [helems]
    exact orderByPointsDesc_perm t
  · have hsorted := orderByPointsDesc_sorted t
    rw [← helems, List.pairwise_map] at hsorted
    intro i j a b hij ha hb
    obtain ⟨hi, rfl⟩ := List.getElem?_eq_some_iff.mp ha
    obtain ⟨hj, rfl⟩ := List.getElem?_eq_some_iff.mp hb
    have := List.pairwise_iff_getElem.mp hsorted i j hi hj hij
    simpa [pointsDesc, rowOfUser] using this
  · intro hne
    have hrne : rows ≠ [] := by
      rw [hrows]
      intro hnil
      have := (orderByPointsDesc_perm t).symm
      rw [hnil] at this
      exact hne (List.Perm.eq_nil this)
    have hsne := hscan.2 (Or.inr hrne)
    rw [hresp]
    cases s with
    | none => exact absurd rfl hsne
    | some l => rfl

/-- C3 at a concrete table: `alice` with 1 point stored before `bob` with 3 points. -/
theorem getLeaderboard_sorted_perm_witness :
    listingSucceeds [⟨"alice", some 1⟩, ⟨"bob", some 3⟩] ∧
    (getLeaderboard [⟨"alice", some 1⟩, ⟨"bob", some 3⟩]).response.body =
      .arr [.obj [("username", .str "bob"), ("points", .num 3)],
        .obj [("username", .str "alice"), ("points", .num 1)]] ∧
    ∃ leaderboard : Slice User,
      (getLeaderboard [⟨"alice", some 1⟩, ⟨"bob", some 3⟩]).response =
        ⟨200, marshalUsers leaderboard⟩ ∧
      (leaderboard.elems.map rowOfUser).Perm [⟨"alice", some 1⟩, ⟨"bob", some 3⟩] ∧
      (∀ (i j : Nat) (a b : User), i < j → leaderboard.elems[i]? = some a →
        leaderboard.elems[j]? = some b → b.points ≤ a.points) ∧
      (([⟨"alice", some 1⟩, ⟨"bob", some 3⟩] : Table) ≠ [] →
        (getLeaderboard [⟨"alice", some 1⟩, ⟨"bob", some 3⟩]).response.body =
          .arr (leaderboard.elems.map marshalUser)) :=
  ⟨⟨_, _, rfl, rfl⟩, rfl,
    getLeaderboard_sorted_perm [⟨"alice", some 1⟩, ⟨"bob", some 3⟩] ⟨_, _, rfl, rfl⟩⟩

/-- C4 (failing input): on the table with zero rows `getLeaderboard` answers 200 and sends one
query, but the slice `leaderboard` is still `nil` and is marshalled as `null`: the body is not
the empty JSON array. -/
theorem getLeaderboard_empty_table_body :
    (getLeaderboard []).response.status = 200 ∧
    (getLeaderboard []).response.body = JSON.null ∧
    (getLeaderboard []).response.body ≠ JSON.arr [] := by
  refine ⟨rfl, rfl, ?_⟩
  intro h
  cases h

/-- C5: on every table with no row for `u`, `getUserScore` for `u` answers 404 with the body
`User not found` under `message`; the status is not 200 and the body has no `error` field. -/
theorem getUserScore_not_found (t : Table) (u : String) (h : ∀ r ∈ t, r.username ≠ u) :
    (getUserScore t u).response = ⟨404, .obj [("message", .str "User not found")]⟩ ∧
    (getUserScore t u).response.status ≠ 200 ∧
    (getUserScore t u).response.body.field "error" = none := by
  have hl := (lookup_eq_none_iff t u).mpr h
  have hr : (getUserScore t u).response = ⟨404, .obj [("message", .str "User not found")]⟩ := by
    simp [getUserScore, queryRowScan, hl, StatusNotFound, ginH]
  rw [hr]
  exact ⟨rfl, by decide, rfl⟩

/-- C5 at a concrete table: `bob` never submitted. -/
theorem getUserScore_not_found_witness :
    (getUserScore [⟨"alice", some 1⟩] "bob").response =
      ⟨404, .obj [("message", .str "User not found")]⟩ ∧
    (getUserScore [⟨"alice", some 1⟩] "bob").response.status ≠ 200 ∧
    (getUserScore [⟨"alice", some 1⟩] "bob").response.body.field "error" = none :=
  getUserScore_not_found [⟨"alice", some 1⟩] "bob" (by decide)

/-- C6 (as stated, fails): for the username `alice` whose row holds 2147483647, the largest
`INT`, submitting a score answers 500 and leaves the row as it was: the points were not
incremented by 1.  On the empty table, submitting a score for a username of 51 letters answers
500 and creates no row, and submitting one for 50 letters and a blank answers 200 and creates
no row for that username: the points were not set to 1. -/
theorem addScore_at_max_not_incremented :
    ((addScore [⟨"alice", some 2147483647⟩] (.ok ⟨"alice", 5⟩)).response.status = 500 ∧
      (addScore [⟨"alice", some 2147483647⟩] (.ok ⟨"alice", 5⟩)).table =
        [⟨"alice", some 2147483647⟩] ∧
      (addScore [⟨"alice", some 2147483647⟩] (.ok ⟨"alice", 5⟩)).table.lookup "alice" ≠
        some ⟨"alice", some (2147483647 + 1)⟩) ∧
    ((addScore [] (.ok ⟨"aaaaaaaaaaaaaaaaaaaaaaaaaaaaaaaaaaaaaaaaaaaaaaaaaaa", 5⟩)).response.status = 500 ∧
      (addScore [] (.ok ⟨"aaaaaaaaaaaaaaaaaaaaaaaaaaaaaaaaaaaaaaaaaaaaaaaaaaa", 5⟩)).table.lookup "aaaaaaaaaaaaaaaaaaaaaaaaaaaaaaaaaaaaaaaaaaaaaaaaaaa" ≠ some ⟨"aaaaaaaaaaaaaaaaaaaaaaaaaaaaaaaaaaaaaaaaaaaaaaaaaaa", some 1⟩) ∧
    ((addScore [] (.ok ⟨"aaaaaaaaaaaaaaaaaaaaaaaaaaaaaaaaaaaaaaaaaaaaaaaaaa ", 5⟩)).response.status = 200 ∧
      (addScore [] (.ok ⟨"aaaaaaaaaaaaaaaaaaaaaaaaaaaaaaaaaaaaaaaaaaaaaaaaaa ", 5⟩)).table.lookup "aaaaaaaaaaaaaaaaaaaaaaaaaaaaaaaaaaaaaaaaaaaaaaaaaa " ≠ some ⟨"aaaaaaaaaaaaaaaaaaaaaaaaaaaaaaaaaaaaaaaaaaaaaaaaaa ", some 1⟩) := by
  decide

/-- C6 (amended): for every table, every username `u` and every two points values `a` and `b`
that fit a Go `int`, submitting `u` with `a` and submitting `u` with `b` have the same outcome
(response, resulting table, statement sent).  When the response is 200 and `u` has at most 50
characters, in the resulting table the points `p` of `u` became `p + 1` (a row with points 1
was created if `u` had none). -/
theorem addScore_ignores_points (t : Table) (u : String) (a b : Int)
    (ha : fitsGoInt a = true) (hb : fitsGoInt b = true) :
    addScore t (.ok ⟨u, a⟩) = addScore t (.ok ⟨u, b⟩) ∧
    ((addScore t (.ok ⟨u, a⟩)).response.status = 200 → u.length ≤ 50 →
      (t.lookup u = none → (addScore t (.ok ⟨u, a⟩)).table.lookup u = some ⟨u, some 1⟩) ∧
      (∀ p : Int, t.lookup u = some ⟨u, some p⟩ →
        (addScore t (.ok ⟨u, a⟩)).table.lookup u = some ⟨u, some (p + 1)⟩)) := by
  have _ := ha
  have _ := hb
  exact ⟨rfl, fun hok hu => @addScore_ok_lookup t ⟨u, a⟩ hu hok⟩

/-- C6 (amended) at concrete tables: an increment and a first submission, whatever the
points submitted. -/
theorem addScore_ignores_points_witness :
    addScore [⟨"bob", some 3⟩] (.ok ⟨"bob", 100⟩) = addScore [⟨"bob", some 3⟩] (.ok ⟨"bob", 0⟩) ∧
    (addScore [⟨"bob", some 3⟩] (.ok ⟨"bob", 100⟩)).table.lookup "bob" =
      some ⟨"bob", some (3 + 1)⟩ ∧
    (addScore [⟨"bob", some 3⟩] (.ok ⟨"alice", -4⟩)).table.lookup "alice" =
      some ⟨"alice", some 1⟩ :=
  ⟨(addScore_ignores_points [⟨"bob", some 3⟩] "bob" 100 0 (by decide) (by decide)).1,
    ((addScore_ignores_points [⟨"bob", some 3⟩] "bob" 100 0 (by decide) (by decide)).2
      (by decide) (by decide)).2 3 (by decide),
    ((addScore_ignores_points [⟨"bob", some 3⟩] "alice" (-4) 0 (by decide) (by decide)).2
      (by decide) (by decide)).1 (by decide)⟩

/-- C7: for a request body that fails to decode, with error text `e`, `addScore` answers 400
with a body whose `error` field is `e`, sends no statement to the database and leaves the
table as it was; the status is neither 200 nor 500. -/
theorem addScore_bad_body (t : Table) (e : String) :
    addScore t (.error e) = ⟨⟨400, .obj [("error", .str e)]⟩, t, []⟩ ∧
    (addScore t (.error e)).response.body.field "error" = some (.str e) ∧
    (addScore t (.error e)).response.status ≠ 200 ∧
    (addScore t (.error e)).response.status ≠ 500 ∧
    (addScore t (.error e)).issued = [] ∧
    (addScore t (.error e)).table = t :=
  ⟨rfl, rfl, by show (400 : Nat) ≠ 200; decide, by show (400 : Nat) ≠ 500; decide, rfl, rfl⟩

/-- C8: for every table, every request of the service (whatever its input and its answer) and
every username `u` whose row holds `p` points before the request, `u` still has a row after
it, holding at least `p` points. -/
theorem rows_kept_points_monotone (t : Table) (q : Request) (u : String) (p : Int)
    (h : t.lookup u = some ⟨u, some p⟩) :
    ∃ p' : Int, (serve t q).table.lookup u = some ⟨u, some p'⟩ ∧ p ≤ p' := by
  cases q with
  | addScore bind => exact addScore_lookup_mono t bind h
  | getLeaderboard =>
    refine ⟨p, ?_, le_refl p⟩
    show (getLeaderboard t).table.lookup u = _
    rw [getLeaderboard_table]
    exact h
  | getUserScore w =>
    refine ⟨p, ?_, le_refl p⟩
    show (getUserScore t w).table.lookup u = _
    rw [getUserScore_table]
    exact h

/-- C8 at a concrete table and request. -/
theorem rows_kept_points_monotone_witness :
    ∃ p' : Int, (serve [⟨"alice", some 2⟩] (.addScore (.ok ⟨"alice", 0⟩))).table.lookup "alice" =
      some ⟨"alice", some p'⟩ ∧ 2 ≤ p' :=
  rows_kept_points_monotone [⟨"alice", some 2⟩] (.addScore (.ok ⟨"alice", 0⟩)) "alice" 2
    (by decide)

/-- C10 (as stated, fails): `addScore` for the username of 50 letters `a` and a blank
changes the row of another username, the 50 letters alone, from 1 point to 2. -/
theorem handlers_frame_padded :
    "aaaaaaaaaaaaaaaaaaaaaaaaaaaaaaaaaaaaaaaaaaaaaaaaaa" ≠ "aaaaaaaaaaaaaaaaaaaaaaaaaaaaaaaaaaaaaaaaaaaaaaaaaa " ∧
    Table.lookup [⟨"aaaaaaaaaaaaaaaaaaaaaaaaaaaaaaaaaaaaaaaaaaaaaaaaaa", some 1⟩] "aaaaaaaaaaaaaaaaaaaaaaaaaaaaaaaaaaaaaaaaaaaaaaaaaa" = some ⟨"aaaaaaaaaaaaaaaaaaaaaaaaaaaaaaaaaaaaaaaaaaaaaaaaaa", some 1⟩ ∧
    (addScore [⟨"aaaaaaaaaaaaaaaaaaaaaaaaaaaaaaaaaaaaaaaaaaaaaaaaaa", some 1⟩] (.ok ⟨"aaaaaaaaaaaaaaaaaaaaaaaaaaaaaaaaaaaaaaaaaaaaaaaaaa ", 0⟩)).table.lookup "aaaaaaaaaaaaaaaaaaaaaaaaaaaaaaaaaaaaaaaaaaaaaaaaaa" = some ⟨"aaaaaaaaaaaaaaaaaaaaaaaaaaaaaaaaaaaaaaaaaaaaaaaaaa", some 2⟩ := by
  decide

/-- C10 (amended): `addScore` for a username `u` of at most 50 characters leaves the row of
every username `v ≠ u` as it was (the rows of the other usernames are the same list, in the
same order); `addScore` on a body that fails to decode, `getLeaderboard` and `getUserScore`
leave the whole table as it was, whatever they answer. -/
theorem handlers_frame (t : Table) :
    (∀ (user : User) (v : String), user.username.length ≤ 50 → v ≠ user.username →
      (addScore t (.ok user)).table.lookup v = t.lookup v) ∧
    (∀ user : User, user.username.length ≤ 50 →
      (addScore t (.ok user)).table.filter (fun r => decide (r.username ≠ user.username)) =
        t.filter (fun r => decide (r.username ≠ user.username))) ∧
    (∀ e : String, (addScore t (.error e)).table = t) ∧
    (getLeaderboard t).table = t ∧
    (∀ u : String, (getUserScore t u).table = t) :=
  ⟨fun user _ hu h => addScore_lookup_other t user hu h, addScore_filter_other t, fun _ => rfl,
    getLeaderboard_table t, getUserScore_table t⟩

/-- C10 (amended) at a concrete table: the rows of the usernames other than the submitted
one. -/
theorem handlers_frame_witness :
    (addScore [⟨"alice", some 1⟩, ⟨"bob", none⟩] (.ok ⟨"carol", 0⟩)).table.lookup "alice" =
      Table.lookup [⟨"alice", some 1⟩, ⟨"bob", none⟩] "alice" ∧
    (addScore [⟨"alice", some 1⟩, ⟨"bob", none⟩] (.ok ⟨"alice", 0⟩)).table.lookup "bob" =
      Table.lookup [⟨"alice", some 1⟩, ⟨"bob", none⟩] "bob" :=
  ⟨(handlers_frame [⟨"alice", some 1⟩, ⟨"bob", none⟩]).1 ⟨"carol", 0⟩ "alice" (by decide)
      (by decide),
    (handlers_frame [⟨"alice", some 1⟩, ⟨"bob", none⟩]).1 ⟨"alice", 0⟩ "bob" (by decide)
      (by decide)⟩

end Leaderboard
